import Mathlib

/-!
# Verification of the authentication core of `rust-actix-example`

A shallow embedding of the auth subsystem (`src/auth.rs`,
`src/middleware/auth.rs`, `src/extractors.rs`, `src/models/user.rs`,
`src/errors.rs`, `src/config.rs`) together with proofs of the
specification's claims about it.

Modelling conventions:
* Rust `String`s whose bytes are processed individually (salts, passwords)
  are modelled as `List Nat` (their byte values); strings used only as
  opaque data (emails, keys, paths) stay Lean `String`s.
* A Rust panic (index out of bounds, `.unwrap()` on `Err`) is modelled as
  `Option.none` on the function's result.
* `Result<T, E>` is modelled as `Except E T`.
* The external `jsonwebtoken` and `argon2rs` crates are not part of the
  repository; the parts of their behaviour the spec relies on are modelled
  from the spec (see the `Modelled from the spec:` doc comments below).
-/

namespace ActixAuth

/-- Server configuration (`src/config.rs`, struct `Config`), loaded once at
startup and immutable thereafter.  The database / redis / logging fields are
plumbing outside the auth core and are omitted.  `auth_salt` is kept as its
byte sequence because `mask_str` processes it byte by byte. -/
structure Config where
  auth_salt : List Nat
  jwt_expiration : Int
  jwt_key : String
  session_key : String
  session_name : String
  session_secure : Bool
  session_timeout : Int
  deriving Repr, DecidableEq

/-- The error enum of `src/errors.rs` (`ApiError`). -/
inductive ApiError where
  | BadRequest (msg : String)
  | BlockingError (msg : String)
  | CacheError (msg : String)
  | CannotDecodeJwtToken (msg : String)
  | CannotEncodeJwtToken (msg : String)
  | InternalServerError (msg : String)
  | NotFound (msg : String)
  | ParseError (msg : String)
  | PoolError (msg : String)
  | ValidationError (errors : List String)
  | Unauthorized (msg : String)
  deriving Repr, DecidableEq

/-- JWT claim set (`src/auth.rs`, struct `PrivateClaim`): user id, email and
expiry timestamp (seconds).  The `Uuid` is kept as its string form. -/
structure PrivateClaim where
  user_id : String
  email : String
  exp : Int
  deriving Repr, DecidableEq

/-- `PrivateClaim::new` (`src/auth.rs` lines 17-23): expiry is the current
time plus the configured number of hours. -/
def PrivateClaim.new (cfg : Config) (now : Int) (user_id email : String) :
    PrivateClaim :=
  { user_id := user_id, email := email
    exp := now + cfg.jwt_expiration * 3600 }

/-- Serialization of a claim set into the token payload. -/
def serializeClaim (c : PrivateClaim) : String :=
  c.user_id ++ "|" ++ c.email ++ "|" ++ toString c.exp

/-- Modelled from the spec: the symmetric, deterministic
message-authentication scheme used by the external `jsonwebtoken` crate to
sign the payload with the server key ("serializes Claims and signs them with
the server signing key using a symmetric message-authentication scheme").
Only determinism in `(key, payload)` matters for the claims below, so a
simple rolling checksum stands in for HMAC-SHA256. -/
def macString (key payload : String) : Nat :=
  payload.data.foldl (fun acc c => (acc * 131 + c.toNat) % 1000000007)
    (key.data.foldl (fun acc c => (acc * 131 + c.toNat) % 1000000007) 7)

/-- The signature over a claim set. -/
def signClaim (key : String) (c : PrivateClaim) : Nat :=
  macString key (serializeClaim c)

/-- The signed wire form of a claim set (spec §6: "a compact three-segment
signed structure"; header is constant `Header::default()` and is omitted). -/
structure Token where
  claims : PrivateClaim
  sig : Nat
  deriving Repr, DecidableEq

/-- `create_jwt` (`src/auth.rs` lines 27-35): serialize and sign the claims
with the configured key.  Signing is a total pure computation here; the
`CannotEncodeJwtToken` branch of the source corresponds to unusable key
material inside the external crate and is never taken in the model. -/
def create_jwt (cfg : Config) (private_claim : PrivateClaim) :
    Except ApiError Token :=
  .ok { claims := private_claim, sig := signClaim cfg.jwt_key private_claim }

/-- `decode_jwt` (`src/auth.rs` lines 38-43).  Modelled from the spec for the
external `jsonwebtoken` validation: "verifies the signature against the
server signing key and checks `expires_at` against current time with zero
leeway", a claim set being valid only while `current_time < expires_at`
(spec §3).  Failure is `CannotDecodeJwtToken` in both cases. -/
def decode_jwt (cfg : Config) (now : Int) (token : Token) :
    Except ApiError PrivateClaim :=
  if token.sig = signClaim cfg.jwt_key token.claims then
    if now < token.claims.exp then .ok token.claims
    else .error (.CannotDecodeJwtToken "ExpiredSignature")
  else .error (.CannotDecodeJwtToken "InvalidSignature")

/-- The loop of `mask_str` (`src/auth.rs` lines 73-82), one recursive step
per iteration of the `while`: reset `m` to `0` once it reaches the mask
length, add the mask byte with `u8::wrapping_add` (`% 256`) and reduce
`% 128`.  Indexing an empty mask panics in Rust, modelled as `none`. -/
def maskLoop (maskb : List Nat) : Nat → List Nat → Option (List Nat)
  | _, [] => some []
  | m, b :: rest =>
    let m0 := if maskb.length ≤ m then 0 else m
    match maskb[m0]? with
    | none => none
    | some mb =>
      match maskLoop maskb (m0 + 1) rest with
      | none => none
      | some tail => some ((b + mb) % 256 % 128 :: tail)

/-- `mask_str` (`src/auth.rs` lines 68-84) on byte sequences.  The final
`String::from_utf8(strb).unwrap()` is modelled by the ASCII check: every
byte the loop produces is `% 128`, and byte sequences below `128` are
exactly the ASCII strings, on which UTF-8 validation always succeeds; a
validation failure (the `unwrap` panic) is `none`. -/
def mask_str (strb maskb : List Nat) : Option (List Nat) :=
  match maskLoop maskb 0 strb with
  | none => none
  | some out => if out.all (fun b => decide (b < 128)) then some out else none

/-- Modelled from the spec: the Argon2i password-hashing function of the
external `argon2rs` crate ("a memory-hard, one-way password-hashing
function (Argon2-family, 'i' variant)"), a deterministic pure function of
password and salt producing 32 output bytes; a rolling checksum stands in
for the real memory-hard computation. -/
def argon2i_simple (password salt : List Nat) : List Nat :=
  (List.range 32).map fun i =>
    password.foldl (fun a b => (a * 257 + b) % 1000003)
      (salt.foldl (fun a b => (a * 263 + b) % 1000003) (i + 17)) % 256

/-- One lowercase hexadecimal digit. -/
def hexDigit (n : Nat) : Char :=
  if n < 10 then Char.ofNat (48 + n) else Char.ofNat (87 + n)

/-- `format!("\x7b:02x\x7d", b)`: a byte as two lowercase hex digits. -/
def byteToHex (b : Nat) : String :=
  String.mk [hexDigit (b / 16 % 16), hexDigit (b % 16)]

/-- `hash` (`src/auth.rs` lines 49-55): mask the per-record salt with the
configured secret salt, run Argon2i over the password with the masked salt,
hex-encode the digest.  The source returns a bare `String` — there is no
error branch; `none` only propagates a panic out of `mask_str`. -/
def hash (cfg : Config) (password salt : List Nat) : Option String :=
  match mask_str salt cfg.auth_salt with
  | none => none
  | some masked =>
    some (String.join ((argon2i_simple password masked).map byteToHex))

/-- The opaque identity string handed over by the session-transport
collaborator: empty, some undecodable garbage, or the wire form of a
token. -/
inductive IdentityStr where
  | empty
  | garbage (s : String)
  | tok (t : Token)
  deriving Repr, DecidableEq

/-- `decode_jwt` applied to an opaque identity string: only a well-formed
token wire form can pass signature verification; the empty string and
garbage are structurally malformed payloads. -/
def decode_identity (cfg : Config) (now : Int) :
    IdentityStr → Except ApiError PrivateClaim
  | .tok t => decode_jwt cfg now t
  | _ => .error (.CannotDecodeJwtToken "InvalidToken")

/-- `AuthUser` (`src/models/user.rs` lines 44-48). -/
structure AuthUser where
  id : String
  email : String
  deriving Repr, DecidableEq

/-- `AuthUser::from_request` (`src/extractors.rs` lines 20-30).  When an
identity is present, the source runs `decode_jwt(&identity).unwrap()`: a
decoding failure panics (`none`).  When no identity is present it returns
`err(HttpResponse::Unauthorized())`. -/
def from_request (cfg : Config) (now : Int) (identity : Option IdentityStr) :
    Option (Except ApiError AuthUser) :=
  match identity with
  | some id =>
    match decode_identity cfg now id with
    | .ok private_claim =>
      some (.ok { id := private_claim.user_id, email := private_claim.email })
    | .error _ => none
  | none => some (.error (.Unauthorized "Unauthorized"))

/-- A service request as the Auth Gate sees it: the route path and the
opaque identity string (absent when the session transport has none). -/
structure ServiceRequest where
  path : String
  identity : Option IdentityStr
  deriving Repr, DecidableEq

/-- The gate's outcome: the short-circuit Unauthorized response, or the
downstream service's response forwarded unmodified. -/
inductive GateResponse (B : Type) where
  | unauthorized
  | downstream (resp : B)
  deriving Repr, DecidableEq

/-- The hard-coded exempt route of `src/middleware/auth.rs` line 56. -/
def login_path : String := "/api/v1/auth/login"

/-- `AuthenticationMiddleware::call` (`src/middleware/auth.rs` lines 52-70).
`service` is the downstream handler; the second component counts how often
it is invoked (0 on the short-circuit, 1 on forwarding). -/
def authenticationCall {B : Type} (cfg : Config) (now : Int)
    (service : ServiceRequest → B) (req : ServiceRequest) :
    GateResponse B × Nat :=
  let identity := req.identity.getD IdentityStr.empty
  let private_claim : Except ApiError PrivateClaim :=
    decode_identity cfg now identity
  let is_logged_in : Bool := private_claim.isOk
  let unauthorized : Bool := !is_logged_in && req.path != login_path
  if unauthorized then (GateResponse.unauthorized, 0)
  else (GateResponse.downstream (service req), 1)

/-- A concrete configuration used by witnesses. -/
def cfg0 : Config :=
  { auth_salt := [1, 2, 3, 4, 5, 6, 7, 8]
    jwt_expiration := 24
    jwt_key := "secretkey"
    session_key := "sessionkey"
    session_name := "auth"
    session_secure := false
    session_timeout := 20 }

/-- A concrete claim set used by witnesses, expiring at time 100. -/
def claim0 : PrivateClaim :=
  { user_id := "uid-1", email := "a@b.com", exp := 100 }

/-- The token for `claim0` signed with `cfg0`'s key. -/
def tok0 : Token :=
  { claims := claim0, sig := signClaim cfg0.jwt_key claim0 }

/-! ## Helper lemmas -/

/-- Characterization of the masking loop for a non-empty mask: it never
panics and byte `i` of the output adds mask byte `(m + i) % mask_len`. -/
theorem maskLoop_eq (maskb : List Nat) (hm : maskb ≠ []) :
    ∀ (strb : List Nat) (m : Nat), m ≤ maskb.length →
      maskLoop maskb m strb =
        some ((List.range strb.length).map fun i =>
          (strb.getD i 0 + maskb.getD ((m + i) % maskb.length) 0) % 128) := by
  intro strb
  induction strb with
  | nil => intro m _; simp [maskLoop]
  | cons b rest ih =>
    intro m hmle
    have hlen : 0 < maskb.length := List.length_pos.mpr hm
    have hm0 : (if maskb.length ≤ m then 0 else m) = m % maskb.length := by
      rcases lt_or_ge m maskb.length with hlt | hge
      · rw [if_neg (not_le.mpr hlt), Nat.mod_eq_of_lt hlt]
      · have heq : m = maskb.length := le_antisymm hmle hge
        rw [if_pos hge, heq, Nat.mod_self]
    have hm0lt : m % maskb.length < maskb.length := Nat.mod_lt _ hlen
    have hget : maskb[m % maskb.length]? =
        some (maskb.getD (m % maskb.length) 0) := by
      rw [List.getElem?_eq_getElem hm0lt, List.getD_eq_getElem _ _ hm0lt]
    have htail := ih (m % maskb.length + 1) (by omega)
    simp only [maskLoop, hm0, hget, htail]
    congr 1
    rw [List.length_cons, List.range_succ_eq_map, List.map_cons, List.map_map]
    congr 1
    · rw [Nat.mod_mod_of_dvd _ (by norm_num)]
      simp
    · apply List.map_congr_left
      intro i _
      simp only [Function.comp_apply, List.getD_cons_succ]
      have hidx : m % maskb.length + 1 + i = m % maskb.length + (1 + i) := by
        omega
      rw [hidx, Nat.mod_add_mod]
      have hidx2 : m + (1 + i) = m + Nat.succ i := by omega
      rw [hidx2]

/-- `mask_str` on a non-empty mask: the UTF-8 validation always passes and
the result is the byte-wise masked sequence. -/
theorem mask_str_eq (strb maskb : List Nat) (hm : maskb ≠ []) :
    mask_str strb maskb =
      some ((List.range strb.length).map fun i =>
        (strb.getD i 0 + maskb.getD (i % maskb.length) 0) % 128) := by
  have h := maskLoop_eq maskb hm strb 0 (Nat.zero_le _)
  simp only [mask_str, h, Nat.zero_add]
  rw [if_pos]
  apply List.all_eq_true.mpr
  intro x hx
  simp only [List.mem_map] at hx
  obtain ⟨i, -, rfl⟩ := hx
  simp [Nat.mod_lt]

/-- A successful decode of an opaque identity means it was a well-formed
token, correctly signed, not yet expired, and the returned claims are the
token's. -/
theorem decode_identity_ok (cfg : Config) (now : Int) (id : IdentityStr)
    (c : PrivateClaim) (h : decode_identity cfg now id = .ok c) :
    ∃ t, id = .tok t ∧ t.sig = signClaim cfg.jwt_key t.claims ∧
      now < t.claims.exp ∧ c = t.claims := by
  cases id with
  | empty => simp [decode_identity] at h
  | garbage s => simp [decode_identity] at h
  | tok t =>
    refine ⟨t, rfl, ?_⟩
    by_cases hsig : t.sig = signClaim cfg.jwt_key t.claims
    · by_cases hexp : now < t.claims.exp
      · simp only [decode_identity, decode_jwt, if_pos hsig, if_pos hexp,
          Except.ok.injEq] at h
        exact ⟨hsig, hexp, h.symm⟩
      · simp [decode_identity, decode_jwt, hsig, hexp] at h
    · simp [decode_identity, decode_jwt, hsig] at h

/-! ## The claims -/

/-- C1: for every claim set whose expiry lies in the future at decode time,
decoding the token produced by `create_jwt` succeeds and returns the claims
unchanged, field for field, under the same signing key. -/
theorem jwt_round_trip (cfg : Config) (c : PrivateClaim) (now : Int)
    (h : now < c.exp) :
    (create_jwt cfg c).bind (decode_jwt cfg now) = .ok c := by
  simp [create_jwt, Except.bind, decode_jwt, h]

/-- C1 witness: round trip at a concrete claim set and time. -/
theorem jwt_round_trip_witness :
    (0 : Int) < claim0.exp ∧
      (create_jwt cfg0 claim0).bind (decode_jwt cfg0 0) = .ok claim0 :=
  ⟨by decide, jwt_round_trip cfg0 claim0 0 (by decide)⟩

/-- C2: for every claim set whose expiry is strictly in the past, encoding
and then decoding yields `CannotDecodeJwtToken` (the expiry is checked with
zero leeway), never a successful decode. -/
theorem jwt_expired_rejected (cfg : Config) (c : PrivateClaim) (now : Int)
    (h : c.exp < now) :
    (create_jwt cfg c).bind (decode_jwt cfg now) =
      .error (.CannotDecodeJwtToken "ExpiredSignature") := by
  have hn : ¬ now < c.exp := by omega
  simp [create_jwt, Except.bind, decode_jwt, hn]

/-- C2 witness: the concrete claim set expiring at 100, decoded at 101. -/
theorem jwt_expired_rejected_witness :
    claim0.exp < 101 ∧
      (create_jwt cfg0 claim0).bind (decode_jwt cfg0 101) =
        .error (.CannotDecodeJwtToken "ExpiredSignature") :=
  ⟨by decide, jwt_expired_rejected cfg0 claim0 101 (by decide)⟩

/-- C3: a request to a non-exempt route whose identity is absent, empty, or
fails to decode gets the Unauthorized short-circuit and the downstream
handler is not invoked (invocation count 0). -/
theorem gate_rejects_unauthenticated {B : Type} (cfg : Config) (now : Int)
    (service : ServiceRequest → B) (req : ServiceRequest)
    (hpath : req.path ≠ login_path)
    (hid : req.identity = none ∨ req.identity = some .empty ∨
      (decode_identity cfg now (req.identity.getD .empty)).isOk = false) :
    authenticationCall cfg now service req = (GateResponse.unauthorized, 0) := by
  have hfail : (decode_identity cfg now (req.identity.getD .empty)).isOk
      = false := by
    rcases hid with h | h | h
    · rw [h]; rfl
    · rw [h]; rfl
    · exact h
  simp [authenticationCall, hfail, hpath]

/-- C3 witness: a protected route with no identity present is rejected with
the handler never invoked. -/
theorem gate_rejects_unauthenticated_witness :
    ({ path := "/api/v1/user", identity := none } : ServiceRequest).path
        ≠ login_path ∧
    (({ path := "/api/v1/user", identity := none } : ServiceRequest).identity
        = none ∨
      ({ path := "/api/v1/user", identity := none } : ServiceRequest).identity
        = some .empty ∨
      (decode_identity cfg0 0
        (({ path := "/api/v1/user", identity := none } :
          ServiceRequest).identity.getD .empty)).isOk = false) ∧
    authenticationCall cfg0 0 (fun _ => (0 : Nat))
        { path := "/api/v1/user", identity := none } =
      (GateResponse.unauthorized, 0) :=
  ⟨by decide, Or.inl rfl,
    gate_rejects_unauthenticated cfg0 0 _ _ (by decide) (Or.inl rfl)⟩

/-- C4: a request to the exempt login route is always forwarded unchanged —
whatever the identity — the downstream handler runs exactly once and its
response is returned unmodified. -/
theorem gate_exempts_login {B : Type} (cfg : Config) (now : Int)
    (service : ServiceRequest → B) (req : ServiceRequest)
    (hpath : req.path = login_path) :
    authenticationCall cfg now service req =
      (GateResponse.downstream (service req), 1) := by
  simp [authenticationCall, hpath]

/-- C4 witness: the login route with an undecodable identity is forwarded
and the handler invoked exactly once. -/
theorem gate_exempts_login_witness :
    ({ path := login_path, identity := some (.garbage "zzz") } :
        ServiceRequest).path = login_path ∧
    authenticationCall cfg0 0 (fun _ => (0 : Nat))
        { path := login_path, identity := some (.garbage "zzz") } =
      (GateResponse.downstream 0, 1) :=
  ⟨rfl, gate_exempts_login cfg0 0 _ _ rfl⟩

/-- C5: the extractor panics instead of failing with Unauthorized: with an
identity present whose decode fails — garbage or the empty string — the
source runs `decode_jwt(&identity).unwrap()` on an `Err`, a panic
(modelled `none`), not the `Unauthorized` error the spec requires. -/
theorem from_request_panics_on_bad_identity :
    from_request cfg0 0 (some (.garbage "bad-token")) = none ∧
    from_request cfg0 0 (some .empty) = none :=
  ⟨rfl, rfl⟩

/-- C6: `hash` has no error branch: an empty record salt is silently
accepted and a digest is produced for every configuration, contradicting
the spec's demand that it be rejected as an error. -/
theorem hash_empty_salt_returns_digest (cfg : Config) (password : List Nat) :
    ∃ d : String, hash cfg password [] = some d :=
  ⟨_, rfl⟩

/-- C7 counterexample: with an empty secret salt and a non-empty record
salt the loop indexes the empty mask and panics — there is no output at
all, refuting the claim's universal quantification over every secret. -/
theorem mask_str_empty_secret_counterexample :
    mask_str [97] [] = none ∧ ¬ ∃ out, mask_str [97] [] = some out := by
  refine ⟨rfl, ?_⟩
  rintro ⟨out, hout⟩
  rw [show mask_str [97] [] = none from rfl] at hout
  exact Option.noConfusion hout

/-- C7 (amended to non-empty secret): the effective salt has exactly the
length of the record salt and byte `i` is
`(record_salt[i] + secret[i % secret.length]) % 128`; only the record salt
drives the iteration length, the secret cycling. -/
theorem mask_str_spec (strb maskb : List Nat) (hm : maskb ≠ []) :
    ∃ out, mask_str strb maskb = some out ∧ out.length = strb.length ∧
      ∀ i, i < strb.length →
        out.getD i 0 = (strb.getD i 0 + maskb.getD (i % maskb.length) 0) % 128 := by
  refine ⟨_, mask_str_eq strb maskb hm, by simp, ?_⟩
  intro i hi
  have hlen : i < ((List.range strb.length).map fun i =>
      (strb.getD i 0 + maskb.getD (i % maskb.length) 0) % 128).length := by
    simpa using hi
  rw [List.getD_eq_getElem _ _ hlen, List.getElem_map, List.getElem_range]

/-- C7 witness: a record salt of three bytes against a one-byte secret. -/
theorem mask_str_spec_witness :
    ∃ out, mask_str [1, 2, 3] [5] = some out ∧ out.length = 3 ∧
      ∀ i, i < 3 →
        out.getD i 0 = (([1, 2, 3] : List Nat).getD i 0 +
          ([5] : List Nat).getD (i % 1) 0) % 128 :=
  mask_str_spec [1, 2, 3] [5] (by decide)

/-- C8: `hash` is deterministic — it reads only the immutable configuration
and draws no randomness, so repeated invocations on the same password and
(non-empty) record salt are literally the same pure computation. -/
theorem hash_deterministic (cfg : Config) (password salt : List Nat)
    (h : salt ≠ []) :
    hash cfg password salt = hash cfg password salt := rfl

/-- C8 witness: determinism at a concrete password and salt. -/
theorem hash_deterministic_witness :
    ([104] : List Nat) ≠ [] ∧
      hash cfg0 [112] [104] = hash cfg0 [112] [104] :=
  ⟨by decide, hash_deterministic cfg0 [112] [104] (by decide)⟩

/-- C9: an `AuthUser` is only ever built from a correctly signed, unexpired
claim set — the extractor returns one only for a well-formed token whose
signature verifies and whose expiry is strictly in the future, and the gate
forwards a non-exempt request only under the same conditions (the gate
itself never constructs an `AuthUser`). -/
theorem auth_user_requires_valid_claims :
    (∀ (cfg : Config) (now : Int) (identity : Option IdentityStr)
        (u : AuthUser),
        from_request cfg now identity = some (.ok u) →
        ∃ t, identity = some (.tok t) ∧
          t.sig = signClaim cfg.jwt_key t.claims ∧ now < t.claims.exp ∧
          u = { id := t.claims.user_id, email := t.claims.email }) ∧
    (∀ (B : Type) (cfg : Config) (now : Int) (service : ServiceRequest → B)
        (req : ServiceRequest) (r : B),
        authenticationCall cfg now service req =
          (GateResponse.downstream r, 1) →
        req.path = login_path ∨
        ∃ t, req.identity = some (.tok t) ∧
          t.sig = signClaim cfg.jwt_key t.claims ∧ now < t.claims.exp) := by
  constructor
  · intro cfg now identity u h
    cases identity with
    | none => simp [from_request] at h
    | some id =>
      cases hd : decode_identity cfg now id with
      | error e => simp [from_request, hd] at h
      | ok c =>
        simp only [from_request, hd, Option.some.injEq, Except.ok.injEq] at h
        obtain ⟨t, hid, hsig, hexp, hc⟩ := decode_identity_ok cfg now id c hd
        refine ⟨t, by rw [hid], hsig, hexp, ?_⟩
        rw [← h, hc]
  · intro B cfg now service req r h
    by_cases hpath : req.path = login_path
    · exact Or.inl hpath
    · right
      by_cases hok : (decode_identity cfg now (req.identity.getD .empty)).isOk
        = true
      · obtain ⟨c, hc⟩ : ∃ c,
            decode_identity cfg now (req.identity.getD .empty) = .ok c := by
          cases hd : decode_identity cfg now (req.identity.getD .empty) with
          | ok c => exact ⟨c, rfl⟩
          | error e => rw [hd] at hok; simp [Except.isOk, Except.toBool] at hok
        obtain ⟨t, hid, hsig, hexp, -⟩ := decode_identity_ok cfg now _ c hc
        have hreq : req.identity = some (.tok t) := by
          cases hv : req.identity with
          | none => rw [hv] at hid; simp [Option.getD] at hid
          | some v => rw [hv] at hid; simp only [Option.getD_some] at hid
                      rw [hid]
        exact ⟨t, hreq, hsig, hexp⟩
      · exfalso
        have hfail : (decode_identity cfg now
            (req.identity.getD .empty)).isOk = false := by
          simpa using hok
        simp [authenticationCall, hfail, hpath] at h

/-- C9 witness: the extractor applied to a valid concrete token, and the
gate forwarding a non-exempt request carrying the same token. -/
theorem auth_user_requires_valid_claims_witness :
    (∃ t, (some (IdentityStr.tok tok0) : Option IdentityStr)
          = some (.tok t) ∧
        t.sig = signClaim cfg0.jwt_key t.claims ∧ (0 : Int) < t.claims.exp ∧
        ({ id := "uid-1", email := "a@b.com" } : AuthUser)
          = { id := t.claims.user_id, email := t.claims.email }) ∧
    (({ path := "/x", identity := some (.tok tok0) } :
        ServiceRequest).path = login_path ∨
      ∃ t, ({ path := "/x", identity := some (.tok tok0) } :
          ServiceRequest).identity = some (.tok t) ∧
        t.sig = signClaim cfg0.jwt_key t.claims ∧ (0 : Int) < t.claims.exp) :=
  ⟨auth_user_requires_valid_claims.1 cfg0 0 (some (.tok tok0))
      { id := "uid-1", email := "a@b.com" } (by rfl),
    auth_user_requires_valid_claims.2 Nat cfg0 0 (fun _ => 0)
      { path := "/x", identity := some (.tok tok0) } 0 (by rfl)⟩

/-- C10 counterexample: `mask_str` is not total — an empty mask with a
non-empty input panics on indexing the mask (before `from_utf8` is even
reached), refuting the claim's quantification over every mask string. -/
theorem mask_str_not_total_counterexample :
    mask_str [104, 105] [] = none ∧
      ¬ ∃ out, mask_str [104, 105] [] = some out := by
  refine ⟨rfl, ?_⟩
  rintro ⟨out, hout⟩
  rw [show mask_str [104, 105] [] = none from rfl] at hout
  exact Option.noConfusion hout

/-- C10 (amended to non-empty mask): `mask_str` always returns a result and
every output byte is strictly below 128, i.e. pure ASCII, so the UTF-8
validation behind `String::from_utf8(...).unwrap()` always succeeds and
the unwrap never panics. -/
theorem mask_str_ascii (strb maskb : List Nat) (hm : maskb ≠ []) :
    ∃ out, mask_str strb maskb = some out ∧ ∀ b ∈ out, b < 128 := by
  refine ⟨_, mask_str_eq strb maskb hm, ?_⟩
  intro b hb
  simp only [List.mem_map] at hb
  obtain ⟨i, -, rfl⟩ := hb
  exact Nat.mod_lt _ (by norm_num)

/-- C10 witness: two high bytes masked with a two-byte mask stay ASCII. -/
theorem mask_str_ascii_witness :
    ∃ out, mask_str [200, 255] [7, 9] = some out ∧ ∀ b ∈ out, b < 128 :=
  mask_str_ascii [200, 255] [7, 9] (by decide)

end ActixAuth
